import Mathlib

/-!
Verification of the message/link state machine of the accept-connect app.

The definitions below are a shallow embedding of the route handlers in
`src/backend/src/routes/messages.ts` and the proximity-session handlers in
`src/backend/src/routes/location.ts`, over a record store modelled as lists
of rows (mirroring the Drizzle tables `messages` and `proximity_sessions`
of `src/backend/src/db/schema.ts`).  The database `findFirst` is the first
matching element of the list; an `update ... where ... returning` is a map
over the rows matching the WHERE clause, returning the first updated row;
`new Date()` is an explicit `now : Int` parameter (milliseconds);
`crypto.randomBytes` tokens are explicit parameters; DB-generated fresh row
ids are modelled as `max id + 1`.
-/

namespace AcceptConnect

/-- The `status` column enum of the `messages` table. -/
inductive MStatus
  | pending
  | accepted
  | rejected
deriving DecidableEq, Repr

/-- The `action` body field of `POST /api/messages/:token/respond`
(the invalid-action 400 branch is outside this type). -/
inductive Action
  | accept
  | reject
deriving DecidableEq, Repr

/-- A row of the `messages` table. -/
structure Message where
  id : Nat
  senderId : String
  recipientId : Option String
  content : String
  status : MStatus
  linkToken : Option String
  linkExpiresAt : Option Int
  singleUse : Bool
  linkUsed : Bool
  createdAt : Int
  updatedAt : Int
deriving DecidableEq, Repr

/-- A row of the auth `user` table (only the fields the routes read). -/
structure User where
  id : String
  name : String
  email : String
deriving DecidableEq, Repr

/-- A row of the `proximity_sessions` table. -/
structure ProxSession where
  id : Nat
  initiatorId : String
  proximityToken : String
  expiresAt : Int
  messageId : Option Nat
deriving DecidableEq, Repr

/-- The record store: the tables the modelled routes touch. -/
structure Store where
  users : List User
  messages : List Message
  sessions : List ProxSession
deriving DecidableEq, Repr

instance exceptDecEq {ε α : Type} [DecidableEq ε] [DecidableEq α] :
    DecidableEq (Except ε α) := fun x y =>
  match x, y with
  | .ok a, .ok b =>
    if h : a = b then isTrue (by rw [h])
    else isFalse (by intro hc; cases hc; exact h rfl)
  | .ok _, .error _ => isFalse (by intro hc; cases hc)
  | .error _, .ok _ => isFalse (by intro hc; cases hc)
  | .error e, .error f =>
    if h : e = f then isTrue (by rw [h])
    else isFalse (by intro hc; cases hc; exact h rfl)

/-- `db.query.messages.findFirst({where: eq(messages.linkToken, token)})`. -/
def findByToken (token : String) : List Message → Option Message
  | [] => none
  | m :: ms => if m.linkToken = some token then some m else findByToken token ms

/-- `db.query.messages.findFirst({where: eq(messages.id, id)})`. -/
def findById (msgId : Nat) : List Message → Option Message
  | [] => none
  | m :: ms => if m.id = msgId then some m else findById msgId ms

/-- `db.query.user.findFirst({where: eq(user.email, email)})`. -/
def findUserByEmail (email : String) : List User → Option User
  | [] => none
  | u :: us => if u.email = email then some u else findUserByEmail email us

/-- `db.query.user.findFirst({where: eq(user.id, id)})`. -/
def findUserById (userId : String) : List User → Option User
  | [] => none
  | u :: us => if u.id = userId then some u else findUserById userId us

/-- `db.query.proximitySessions.findFirst({where: eq(proximitySessions.proximityToken, token)})`. -/
def findSessionByToken (token : String) : List ProxSession → Option ProxSession
  | [] => none
  | q :: qs => if q.proximityToken = token then some q else findSessionByToken token qs

/-- `!content || content.trim().length === 0`: the content is absent or
whitespace-only (a trimmed string is empty exactly when every character
is whitespace). -/
def contentEmpty (content : String) : Bool :=
  content.data.all fun c => c.isWhitespace

/-- `message.linkExpiresAt && new Date() > message.linkExpiresAt`
(a null `linkExpiresAt` never counts as expired). -/
def linkExpired (now : Int) (m : Message) : Bool :=
  match m.linkExpiresAt with
  | some e => decide (e < now)
  | none => false

/-- `action === 'accept' ? 'accepted' : 'rejected'`. -/
def actStatus : Action → MStatus
  | .accept => .accepted
  | .reject => .rejected

/-- `message.recipientId || session.user.id` (set recipient if not already set). -/
def bindRecip (pre : Option String) (actorId : String) : Option String :=
  match pre with
  | some r => some r
  | none => some actorId

/-- Typed failures of `GET /api/messages/link/:token` and
`POST /api/messages/:token/respond` (404, 410, 410). -/
inductive LinkErr
  | notFound
  | expired
  | alreadyUsed
deriving DecidableEq, Repr

/-- The SET clause of the respond update: status, recipient binding,
linkUsed, updatedAt; `pre` is the recipientId of the row read in the
preceding `findFirst`. -/
def respondSet (now : Int) (actorId : String) (act : Action) (pre : Option String)
    (m : Message) : Message :=
  { m with
    status := actStatus act
    recipientId := bindRecip pre actorId
    linkUsed := true
    updatedAt := now }

/-- The respond UPDATE statement: its WHERE clause matches on `linkToken`
only (`.where(eq(schema.messages.linkToken, token))`). -/
def respondUpdateStep (now : Int) (actorId : String) (act : Action)
    (pre : Option String) (token : String) (s : Store) : Store :=
  { s with
    messages := s.messages.map fun m =>
      if m.linkToken = some token then respondSet now actorId act pre m else m }

/-- The read phase of `POST /api/messages/:token/respond`: `findFirst` by
token, then the expiry check, then the single-use check, in that order. -/
def respondCheck (now : Int) (token : String) (s : Store) : Except LinkErr Message :=
  match findByToken token s.messages with
  | none => .error .notFound
  | some m =>
    if linkExpired now m then .error .expired
    else if m.singleUse && m.linkUsed then .error .alreadyUsed
    else .ok m

/-- The success body of `POST /api/messages/:token/respond`:
`{id, status, recipientId}` of the updated row. -/
structure RespondOk where
  id : Nat
  status : MStatus
  recipientId : Option String
deriving DecidableEq, Repr

/-- `POST /api/messages/:token/respond`: read phase, then the UPDATE whose
WHERE clause matches the linkToken; the returned row is the first updated
row, i.e. the update applied to the row found by the read phase. -/
def respond (now : Int) (actorId : String) (act : Action) (token : String)
    (s : Store) : Except LinkErr RespondOk × Store :=
  match respondCheck now token s with
  | .error e => (.error e, s)
  | .ok m =>
    (.ok { id := m.id, status := actStatus act, recipientId := bindRecip m.recipientId actorId },
     respondUpdateStep now actorId act m.recipientId token s)

/-- The sender object embedded in the link view (`sender?.id` etc. —
the sender lookup may come back empty). -/
structure SenderView where
  id : Option String
  name : Option String
  email : Option String
deriving DecidableEq, Repr

/-- The response body of `GET /api/messages/link/:token`: exactly
`{id, content, status, createdAt, sender}` — no link or recipient fields. -/
structure LinkView where
  id : Nat
  content : String
  status : MStatus
  createdAt : Int
  sender : SenderView
deriving DecidableEq, Repr

/-- The projection building the link view from a message row and the
(optional) sender row. -/
def linkViewOf (m : Message) (u : Option User) : LinkView :=
  { id := m.id
    content := m.content
    status := m.status
    createdAt := m.createdAt
    sender :=
      { id := u.map fun x => x.id
        name := u.map fun x => x.name
        email := u.map fun x => x.email } }

/-- `GET /api/messages/link/:token`: find by token, expiry check,
single-use check, sender lookup, projected response.  The handler contains
no UPDATE or INSERT, so the store passes through unchanged. -/
def resolveByToken (now : Int) (token : String) (s : Store) :
    Except LinkErr LinkView × Store :=
  match findByToken token s.messages with
  | none => (.error .notFound, s)
  | some m =>
    if linkExpired now m then (.error .expired, s)
    else if m.singleUse && m.linkUsed then (.error .alreadyUsed, s)
    else (.ok (linkViewOf m (findUserById m.senderId s.users)), s)

/-- Typed failures of the id-based accept/reject endpoints (404, 403). -/
inductive IdErr
  | notFound
  | forbidden
deriving DecidableEq, Repr

/-- `message.recipientId && message.recipientId !== session.user.id`. -/
def recipMismatch (m : Message) (actorId : String) : Bool :=
  match m.recipientId with
  | some r => decide (r ≠ actorId)
  | none => false

/-- `POST /api/messages/:id/accept`: find by id, recipient check, then an
UPDATE (WHERE id) setting status, linkUsed and updatedAt — it does not
bind `recipientId`. -/
def acceptById (now : Int) (actorId : String) (msgId : Nat) (s : Store) :
    Except IdErr Message × Store :=
  match findById msgId s.messages with
  | none => (.error .notFound, s)
  | some m =>
    if recipMismatch m actorId then (.error .forbidden, s)
    else
      (.ok { m with status := .accepted, linkUsed := true, updatedAt := now },
       { s with
         messages := s.messages.map fun mm =>
           if mm.id = msgId then { mm with status := .accepted, linkUsed := true, updatedAt := now }
           else mm })

/-- `POST /api/messages/:id/reject`: find by id, recipient check, then an
UPDATE (WHERE id) setting only status and updatedAt — it touches neither
`linkUsed` nor `recipientId`. -/
def rejectById (now : Int) (actorId : String) (msgId : Nat) (s : Store) :
    Except IdErr Message × Store :=
  match findById msgId s.messages with
  | none => (.error .notFound, s)
  | some m =>
    if recipMismatch m actorId then (.error .forbidden, s)
    else
      (.ok { m with status := .rejected, updatedAt := now },
       { s with
         messages := s.messages.map fun mm =>
           if mm.id = msgId then { mm with status := .rejected, updatedAt := now }
           else mm })

/-- The 400 / 404 failures of `POST /api/messages` (content required,
recipient email not found). -/
inductive CreateErr
  | contentRequired
  | recipientNotFound
deriving DecidableEq, Repr

/-- The request body of `POST /api/messages` (absent JSON fields are
`none`). -/
structure CreateInput where
  content : String
  recipientEmail : Option String
  recipientId : Option String
  linkExpiresIn : Option Int
  singleUse : Option Bool
deriving DecidableEq, Repr

/-- `24 * 60 * 60 * 1000` — the default link expiration of
`POST /api/messages`. -/
def defaultLinkMs : Int := 24 * 60 * 60 * 1000

/-- `linkExpiresIn || 24*60*60*1000`: JavaScript picks the default when
the field is absent or falsy (0). -/
def expirationMsOf (linkExpiresIn : Option Int) : Int :=
  match linkExpiresIn with
  | some v => if v = 0 then defaultLinkMs else v
  | none => defaultLinkMs

/-- The recipient resolution of `POST /api/messages`: a truthy
`recipientEmail` is looked up (404 when missing); otherwise a truthy
`recipientId` is taken as-is; otherwise the consent flow leaves it null. -/
def resolveRecipient (inp : CreateInput) (users : List User) :
    Except CreateErr (Option String) :=
  match inp.recipientEmail with
  | some e =>
    if e ≠ "" then
      match findUserByEmail e users with
      | some u => .ok (some u.id)
      | none => .error .recipientNotFound
    else
      match inp.recipientId with
      | some r => if r ≠ "" then .ok (some r) else .ok none
      | none => .ok none
  | none =>
    match inp.recipientId with
    | some r => if r ≠ "" then .ok (some r) else .ok none
    | none => .ok none

/-- Fresh message id, modelling the DB-generated unique primary key. -/
def maxMsgId : List Message → Nat
  | [] => 0
  | m :: ms => max m.id (maxMsgId ms)

/-- Next unused message id. -/
def freshMsgId (ms : List Message) : Nat := maxMsgId ms + 1

/-- The row INSERTed by `POST /api/messages`: a pending message carrying
the freshly generated link token (`randomBytes(32).toString('hex')`,
modelled as the `freshToken` parameter),
`linkExpiresAt = now + expirationMs` and `singleUse: singleUse ?? true`. -/
def newMsgOf (now : Int) (senderId : String) (inp : CreateInput)
    (freshToken : String) (rid : Option String) (s : Store) : Message :=
  { id := freshMsgId s.messages
    senderId := senderId
    recipientId := rid
    content := inp.content
    status := .pending
    linkToken := some freshToken
    linkExpiresAt := some (now + expirationMsOf inp.linkExpiresIn)
    singleUse := inp.singleUse.getD true
    linkUsed := false
    createdAt := now
    updatedAt := now }

/-- `POST /api/messages`: content validation
(`!content || content.trim().length === 0`), recipient resolution, then
the INSERT of `newMsgOf`. -/
def createMessage (now : Int) (senderId : String) (inp : CreateInput)
    (freshToken : String) (s : Store) : Except CreateErr Message × Store :=
  if contentEmpty inp.content then (.error .contentRequired, s)
  else
    match resolveRecipient inp s.users with
    | .error e => (.error e, s)
    | .ok rid =>
      (.ok (newMsgOf now senderId inp freshToken rid s),
       { s with messages := s.messages ++ [newMsgOf now senderId inp freshToken rid s] })

/-- Fresh proximity-session id, modelling the DB-generated unique key. -/
def maxSessId : List ProxSession → Nat
  | [] => 0
  | q :: qs => max q.id (maxSessId qs)

/-- Next unused session id. -/
def freshSessId (qs : List ProxSession) : Nat := maxSessId qs + 1

/-- `expiresIn || 5 * 60 * 1000`: the 5-minute default applies when the
field is absent or falsy (0). -/
def proxExpirationMsOf (expiresIn : Option Int) : Int :=
  match expiresIn with
  | some v => if v = 0 then 5 * 60 * 1000 else v
  | none => 5 * 60 * 1000

/-- The row INSERTed by `POST /api/proximity/session`. -/
def newSessOf (now : Int) (initiatorId : String) (expiresIn : Option Int)
    (freshToken : String) (s : Store) : ProxSession :=
  { id := freshSessId s.sessions
    initiatorId := initiatorId
    proximityToken := freshToken
    expiresAt := now + proxExpirationMsOf expiresIn
    messageId := none }

/-- `POST /api/proximity/session`: INSERT of a session with
`expiresIn || 5*60*1000` expiry and a random token (parameter). -/
def createProxSession (now : Int) (initiatorId : String)
    (expiresIn : Option Int) (freshToken : String) (s : Store) :
    ProxSession × Store :=
  (newSessOf now initiatorId expiresIn freshToken s,
   { s with sessions := s.sessions ++ [newSessOf now initiatorId expiresIn freshToken s] })

/-- Failures of `POST /api/proximity/session/:token/send`
(400, 404, 403, 410, 400). -/
inductive AttachErr
  | contentRequired
  | notFound
  | forbidden
  | expired
  | alreadyAttached
deriving DecidableEq, Repr

/-- The message row INSERTed by `POST /api/proximity/session/:token/send`:
a pending message with `recipientId: null` and no link token — the
proximity INSERT sets neither `linkToken` nor `linkExpiresAt`, and
`singleUse` keeps its schema default `false`. -/
def attachedMsgOf (now : Int) (actorId content : String) (s : Store) : Message :=
  { id := freshMsgId s.messages
    senderId := actorId
    recipientId := none
    content := content
    status := .pending
    linkToken := none
    linkExpiresAt := none
    singleUse := false
    linkUsed := false
    createdAt := now
    updatedAt := now }

/-- `POST /api/proximity/session/:token/send`: content check, session
lookup, initiator check, expiry check, already-attached check; then the
INSERT of `attachedMsgOf` and an UPDATE of the session's `messageId`
(WHERE session id). -/
def attachMessage (now : Int) (actorId : String) (token : String)
    (content : String) (s : Store) : Except AttachErr (Nat × Nat) × Store :=
  if contentEmpty content then (.error .contentRequired, s)
  else
    match findSessionByToken token s.sessions with
    | none => (.error .notFound, s)
    | some q =>
      if q.initiatorId ≠ actorId then (.error .forbidden, s)
      else if q.expiresAt < now then (.error .expired, s)
      else
        match q.messageId with
        | some _ => (.error .alreadyAttached, s)
        | none =>
          (.ok (freshMsgId s.messages, q.id),
           { s with
             messages := s.messages ++ [attachedMsgOf now actorId content s]
             sessions := s.sessions.map fun qq =>
               if qq.id = q.id then { qq with messageId := some (freshMsgId s.messages) }
               else qq })

/-- Failures of the read-only session endpoints (404, 410, 404). -/
inductive SessErr
  | notFound
  | expired
  | initiatorNotAllowed
deriving DecidableEq, Repr

/-- `POST /api/proximity/session/:token/connect`: lookup, expiry check,
initiator exclusion; the handler performs no writes. -/
def connectSession (now : Int) (actorId : String) (token : String)
    (s : Store) : Except SessErr (Nat × String × Bool × Int) × Store :=
  match findSessionByToken token s.sessions with
  | none => (.error .notFound, s)
  | some q =>
    if q.expiresAt < now then (.error .expired, s)
    else if q.initiatorId = actorId then (.error .initiatorNotAllowed, s)
    else (.ok (q.id, q.initiatorId, q.messageId.isSome, q.expiresAt), s)

/-- `GET /api/proximity/session/:token`: lookup and expiry check; the
handler performs no writes. -/
def viewSession (now : Int) (token : String) (s : Store) :
    Except SessErr (Nat × Bool × Int) × Store :=
  match findSessionByToken token s.sessions with
  | none => (.error .notFound, s)
  | some q =>
    if q.expiresAt < now then (.error .expired, s)
    else (.ok (q.id, q.messageId.isSome, q.expiresAt), s)

/-- `GET /api/proximity/session/:token/message`: lookup, expiry check,
attached-message check, message lookup; the handler performs no writes. -/
def fetchSessionMessage (now : Int) (token : String) (s : Store) :
    Except SessErr Message × Store :=
  match findSessionByToken token s.sessions with
  | none => (.error .notFound, s)
  | some q =>
    if q.expiresAt < now then (.error .expired, s)
    else
      match q.messageId with
      | none => (.error .notFound, s)
      | some mid =>
        match findById mid s.messages with
        | none => (.error .notFound, s)
        | some m => (.ok m, s)

/-- The message-mutating endpoints, as store operations: respond via link
token, accept by id, reject by id. -/
inductive MsgOp
  | respondTok (now : Int) (actorId : String) (act : Action) (token : String)
  | acceptOp (now : Int) (actorId : String) (msgId : Nat)
  | rejectOp (now : Int) (actorId : String) (msgId : Nat)
deriving DecidableEq, Repr

/-- The authenticated caller of a message operation. -/
def msgOpActor : MsgOp → String
  | .respondTok _ a _ _ => a
  | .acceptOp _ a _ => a
  | .rejectOp _ a _ => a

/-- The store effect of one message operation. -/
def stepMsg : MsgOp → Store → Store
  | .respondTok now a act t, s => (respond now a act t s).2
  | .acceptOp now a mid, s => (acceptById now a mid s).2
  | .rejectOp now a mid, s => (rejectById now a mid s).2

/-- Run a sequence of message operations left to right. -/
def runMsgOps : List MsgOp → Store → Store
  | [], s => s
  | op :: ops, s => runMsgOps ops (stepMsg op s)

/-- The proximity-session endpoints, as store operations. -/
inductive SessOp
  | createOp (now : Int) (initiatorId : String) (expiresIn : Option Int) (freshToken : String)
  | attachOp (now : Int) (actorId : String) (token : String) (content : String)
  | connectOp (now : Int) (actorId : String) (token : String)
  | viewOp (now : Int) (token : String)
  | fetchOp (now : Int) (token : String)
deriving DecidableEq, Repr

/-- The store effect of one proximity-session operation. -/
def stepSess : SessOp → Store → Store
  | .createOp now i e ft, s => (createProxSession now i e ft s).2
  | .attachOp now a t c, s => (attachMessage now a t c s).2
  | .connectOp now a t, s => (connectSession now a t s).2
  | .viewOp now t, s => (viewSession now t s).2
  | .fetchOp now t, s => (fetchSessionMessage now t s).2

/-- Run a sequence of proximity-session operations left to right. -/
def runSessOps : List SessOp → Store → Store
  | [], s => s
  | op :: ops, s => runSessOps ops (stepSess op s)

/-- Number of rows the respond UPDATE's WHERE clause matches
(the affected-row count of the conditional update). -/
def countMatching (token : String) (ms : List Message) : Nat :=
  (ms.filter fun m => decide (m.linkToken = some token)).length

/-- Distinctness of the `messages` primary key, as the DB guarantees it. -/
def IdUnique (ms : List Message) : Prop :=
  ms.Pairwise fun a b => a.id ≠ b.id

/-- Distinctness of the `link_token` unique column (nulls may repeat). -/
def TokUnique (ms : List Message) : Prop :=
  ms.Pairwise fun a b => a.linkToken = none ∨ a.linkToken ≠ b.linkToken

/-- Distinctness of the `proximity_sessions` primary key. -/
def SessIdUnique (qs : List ProxSession) : Prop :=
  qs.Pairwise fun a b => a.id ≠ b.id

theorem findByToken_mem {t : String} {m : Message} :
    ∀ {ms : List Message}, findByToken t ms = some m → m ∈ ms ∧ m.linkToken = some t := by
  intro ms
  induction ms with
  | nil => intro h; simp [findByToken] at h
  | cons a tl ih =>
    intro h
    by_cases hc : a.linkToken = some t
    · simp only [findByToken, if_pos hc, Option.some.injEq] at h
      subst h
      exact ⟨List.mem_cons_self a tl, hc⟩
    · simp only [findByToken, if_neg hc] at h
      rcases ih h with ⟨h1, h2⟩
      exact ⟨List.mem_cons_of_mem _ h1, h2⟩

theorem findByToken_map (t : String) (g : Message → Message)
    (hg : ∀ x, (g x).linkToken = x.linkToken) :
    ∀ ms : List Message, findByToken t (ms.map g) = (findByToken t ms).map g := by
  intro ms
  induction ms with
  | nil => rfl
  | cons a tl ih =>
    by_cases hc : a.linkToken = some t
    · simp [findByToken, hg, hc]
    · simp [findByToken, hg, hc, ih]

theorem findById_mem {i : Nat} {m : Message} :
    ∀ {ms : List Message}, findById i ms = some m → m ∈ ms ∧ m.id = i := by
  intro ms
  induction ms with
  | nil => intro h; simp [findById] at h
  | cons a tl ih =>
    intro h
    by_cases hc : a.id = i
    · simp only [findById, if_pos hc, Option.some.injEq] at h
      subst h
      exact ⟨List.mem_cons_self a tl, hc⟩
    · simp only [findById, if_neg hc] at h
      rcases ih h with ⟨h1, h2⟩
      exact ⟨List.mem_cons_of_mem _ h1, h2⟩

theorem findById_map (i : Nat) (g : Message → Message)
    (hg : ∀ x, (g x).id = x.id) :
    ∀ ms : List Message, findById i (ms.map g) = (findById i ms).map g := by
  intro ms
  induction ms with
  | nil => rfl
  | cons a tl ih =>
    by_cases hc : a.id = i
    · simp [findById, hg, hc]
    · simp [findById, hg, hc, ih]

theorem findSessionByToken_mem {t : String} {q : ProxSession} :
    ∀ {qs : List ProxSession}, findSessionByToken t qs = some q → q ∈ qs ∧ q.proximityToken = t := by
  intro qs
  induction qs with
  | nil => intro h; simp [findSessionByToken] at h
  | cons a tl ih =>
    intro h
    by_cases hc : a.proximityToken = t
    · simp only [findSessionByToken, if_pos hc, Option.some.injEq] at h
      subst h
      exact ⟨List.mem_cons_self a tl, hc⟩
    · simp only [findSessionByToken, if_neg hc] at h
      rcases ih h with ⟨h1, h2⟩
      exact ⟨List.mem_cons_of_mem _ h1, h2⟩

theorem findSessionByToken_map (t : String) (g : ProxSession → ProxSession)
    (hg : ∀ x, (g x).proximityToken = x.proximityToken) :
    ∀ qs : List ProxSession, findSessionByToken t (qs.map g) = (findSessionByToken t qs).map g := by
  intro qs
  induction qs with
  | nil => rfl
  | cons a tl ih =>
    by_cases hc : a.proximityToken = t
    · simp [findSessionByToken, hg, hc]
    · simp [findSessionByToken, hg, hc, ih]

theorem idUnique_eq {ms : List Message} (h : IdUnique ms) {m1 m2 : Message}
    (h1 : m1 ∈ ms) (h2 : m2 ∈ ms) (he : m1.id = m2.id) : m1 = m2 := by
  induction ms with
  | nil => cases h1
  | cons a tl ih =>
    rw [IdUnique, List.pairwise_cons] at h
    rcases h with ⟨ha, htl⟩
    rcases List.mem_cons.mp h1 with rfl | h1x
    · rcases List.mem_cons.mp h2 with rfl | h2x
      · rfl
      · exact absurd he (ha _ h2x)
    · rcases List.mem_cons.mp h2 with rfl | h2x
      · exact absurd he.symm (ha _ h1x)
      · exact ih htl h1x h2x

theorem tokUnique_eq {ms : List Message} (h : TokUnique ms) {m1 m2 : Message} {u : String}
    (h1 : m1 ∈ ms) (h2 : m2 ∈ ms)
    (e1 : m1.linkToken = some u) (e2 : m2.linkToken = some u) : m1 = m2 := by
  induction ms with
  | nil => cases h1
  | cons a tl ih =>
    rw [TokUnique, List.pairwise_cons] at h
    rcases h with ⟨ha, htl⟩
    rcases List.mem_cons.mp h1 with rfl | h1x
    · rcases List.mem_cons.mp h2 with rfl | h2x
      · rfl
      · rcases ha _ h2x with hn | hne
        · exact absurd e1 (by simp [hn])
        · exact absurd (e1.trans e2.symm) hne
    · rcases List.mem_cons.mp h2 with rfl | h2x
      · rcases ha _ h1x with hn | hne
        · exact absurd e2 (by simp [hn])
        · exact absurd (e2.trans e1.symm) hne
      · exact ih htl h1x h2x

theorem sessIdUnique_eq {qs : List ProxSession} (h : SessIdUnique qs) {q1 q2 : ProxSession}
    (h1 : q1 ∈ qs) (h2 : q2 ∈ qs) (he : q1.id = q2.id) : q1 = q2 := by
  induction qs with
  | nil => cases h1
  | cons a tl ih =>
    rw [SessIdUnique, List.pairwise_cons] at h
    rcases h with ⟨ha, htl⟩
    rcases List.mem_cons.mp h1 with rfl | h1x
    · rcases List.mem_cons.mp h2 with rfl | h2x
      · rfl
      · exact absurd he (ha _ h2x)
    · rcases List.mem_cons.mp h2 with rfl | h2x
      · exact absurd he.symm (ha _ h1x)
      · exact ih htl h1x h2x

theorem idUnique_map {ms : List Message} (g : Message → Message)
    (hg : ∀ x, (g x).id = x.id) (h : IdUnique ms) : IdUnique (ms.map g) := by
  rw [IdUnique, List.pairwise_map]
  refine h.imp ?_
  intro a b hab
  rw [hg a, hg b]
  exact hab

theorem tokUnique_map {ms : List Message} (g : Message → Message)
    (hg : ∀ x, (g x).linkToken = x.linkToken) (h : TokUnique ms) : TokUnique (ms.map g) := by
  rw [TokUnique, List.pairwise_map]
  refine h.imp ?_
  intro a b hab
  rw [hg a, hg b]
  exact hab

theorem sessIdUnique_map {qs : List ProxSession} (g : ProxSession → ProxSession)
    (hg : ∀ x, (g x).id = x.id) (h : SessIdUnique qs) : SessIdUnique (qs.map g) := by
  rw [SessIdUnique, List.pairwise_map]
  refine h.imp ?_
  intro a b hab
  rw [hg a, hg b]
  exact hab

theorem countMatching_map (t : String) (g : Message → Message)
    (hg : ∀ x, (g x).linkToken = x.linkToken) :
    ∀ ms : List Message, countMatching t (ms.map g) = countMatching t ms := by
  intro ms
  induction ms with
  | nil => rfl
  | cons a tl ih =>
    unfold countMatching at ih ⊢
    simp only [List.map_cons, List.filter_cons, hg]
    by_cases hc : a.linkToken = some t
    · simp [hc, ih]
    · simp [hc, ih]

theorem countMatching_pos {t : String} {m : Message} {ms : List Message}
    (hm : m ∈ ms) (ht : m.linkToken = some t) : 1 ≤ countMatching t ms := by
  have : m ∈ ms.filter fun x => decide (x.linkToken = some t) :=
    List.mem_filter.mpr ⟨hm, by simp [ht]⟩
  have hp := List.length_pos_of_mem this
  exact hp

theorem mem_le_maxSessId {q : ProxSession} :
    ∀ {qs : List ProxSession}, q ∈ qs → q.id ≤ maxSessId qs := by
  intro qs
  induction qs with
  | nil => intro h; cases h
  | cons a tl ih =>
    intro h
    rcases List.mem_cons.mp h with rfl | hx
    · exact le_max_left _ _
    · exact le_trans (ih hx) (le_max_right _ _)

theorem sessIdUnique_append {qs : List ProxSession} (h : SessIdUnique qs)
    (qnew : ProxSession) (hfresh : ∀ q ∈ qs, q.id ≠ qnew.id) :
    SessIdUnique (qs ++ [qnew]) := by
  rw [SessIdUnique, List.pairwise_append]
  refine ⟨h, List.pairwise_singleton _ _, ?_⟩
  intro a ha b hb
  have hb1 : b = qnew := by simpa using hb
  subst hb1
  exact hfresh a ha

/-- Claim C7: `GET /api/messages/link/:token` is side-effect free: for
every token and every store state, the store after the operation equals
the store before it, whether the result is the message view or a typed
failure — viewing a link never consumes it. -/
theorem c7_resolve_by_token_no_side_effect :
    ∀ (now : Int) (t : String) (s : Store), (resolveByToken now t s).2 = s := by
  intro now t s
  unfold resolveByToken
  cases h : findByToken t s.messages with
  | none => rfl
  | some m =>
    by_cases h1 : linkExpired now m
    · simp [h1]
    · by_cases h2 : m.singleUse && m.linkUsed
      · simp [h1, h2]
      · simp [h1, h2]

/-- Claim C5: both `resolveByToken` and `respond` check their
preconditions in a fixed order where the first failure wins: unknown token
yields NotFound; otherwise a passed `linkExpiresAt` yields Expired
regardless of `linkUsed`; otherwise a used single-use link yields
AlreadyUsed.  In particular, once `now` is past `linkExpiresAt`, every
operation against that token returns Expired. -/
theorem c5_first_failure_wins (s : Store) (now : Int) (t : String)
    (a : String) (act : Action) :
    (findByToken t s.messages = none →
      resolveByToken now t s = (.error .notFound, s) ∧
      respond now a act t s = (.error .notFound, s)) ∧
    (∀ m : Message, findByToken t s.messages = some m →
      (∀ e : Int, m.linkExpiresAt = some e → e < now →
        resolveByToken now t s = (.error .expired, s) ∧
        respond now a act t s = (.error .expired, s)) ∧
      (linkExpired now m = false → m.singleUse = true → m.linkUsed = true →
        resolveByToken now t s = (.error .alreadyUsed, s) ∧
        respond now a act t s = (.error .alreadyUsed, s))) := by
  constructor
  · intro h
    constructor
    · simp [resolveByToken, h]
    · simp [respond, respondCheck, h]
  · intro m hm
    constructor
    · intro e he hlt
      have hexp : linkExpired now m = true := by
        unfold linkExpired
        rw [he]
        simpa using hlt
      constructor
      · simp [resolveByToken, hm, hexp]
      · simp [respond, respondCheck, hm, hexp]
    · intro hexp hsu hlu
      constructor
      · simp [resolveByToken, hm, hexp, hsu, hlu]
      · simp [respond, respondCheck, hm, hexp, hsu, hlu]

/-- Concrete store with one expired link for the C5 witness. -/
def mExpiredC5 : Message :=
  { id := 1, senderId := "sally", recipientId := none, content := "hello"
    status := .pending, linkToken := some "t", linkExpiresAt := some 10
    singleUse := true, linkUsed := true, createdAt := 0, updatedAt := 0 }

/-- Store holding `mExpiredC5`. -/
def sExpiredC5 : Store := { users := [], messages := [mExpiredC5], sessions := [] }

/-- Concrete store with a used single-use link for the C5 witness. -/
def mUsedC5 : Message :=
  { id := 2, senderId := "sally", recipientId := some "rita", content := "hi"
    status := .accepted, linkToken := some "u", linkExpiresAt := some 1000
    singleUse := true, linkUsed := true, createdAt := 0, updatedAt := 0 }

/-- Store holding `mUsedC5`. -/
def sUsedC5 : Store := { users := [], messages := [mUsedC5], sessions := [] }

/-- Witness for C5: at `now = 100` the expired (and used) link yields
Expired on both operations, an unknown token yields NotFound, and at
`now = 5` the used single-use link yields AlreadyUsed. -/
theorem c5_first_failure_wins_witness :
    (resolveByToken 100 "t" sExpiredC5 = (.error .expired, sExpiredC5) ∧
      respond 100 "bob" .accept "t" sExpiredC5 = (.error .expired, sExpiredC5)) ∧
    respond 100 "bob" .accept "zzz" sExpiredC5 = (.error .notFound, sExpiredC5) ∧
    resolveByToken 5 "u" sUsedC5 = (.error .alreadyUsed, sUsedC5) := by
  refine ⟨?_, ?_, ?_⟩
  · exact ((c5_first_failure_wins sExpiredC5 100 "t" "bob" .accept).2 mExpiredC5 rfl).1 10 rfl (by decide)
  · exact ((c5_first_failure_wins sExpiredC5 100 "zzz" "bob" .accept).1 (by decide)).2
  · exact (((c5_first_failure_wins sUsedC5 5 "u" "bob" .accept).2 mUsedC5 rfl).2 (by decide) rfl rfl).1

/-- Claim C10: the link view is a fixed projection: on success
`resolveByToken` returns exactly `{id, content, status, createdAt, sender}`
of the stored row, and the projection does not depend on the row's
`linkToken`, `linkUsed`, `singleUse`, `linkExpiresAt` or `recipientId` —
two rows agreeing on the exposed fields produce the same view. -/
theorem c10_link_view_is_fixed_projection (s : Store) (now : Int) (t : String)
    (m : Message) (hm : findByToken t s.messages = some m)
    (hexp : linkExpired now m = false)
    (hguard : (m.singleUse && m.linkUsed) = false) :
    resolveByToken now t s =
      (.ok (linkViewOf m (findUserById m.senderId s.users)), s) ∧
    (∀ (m1 m2 : Message) (u : Option User), m1.id = m2.id →
      m1.content = m2.content → m1.status = m2.status →
      m1.createdAt = m2.createdAt → linkViewOf m1 u = linkViewOf m2 u) := by
  constructor
  · simp [resolveByToken, hm, hexp, hguard]
  · intro m1 m2 u h1 h2 h3 h4
    simp [linkViewOf, h1, h2, h3, h4]

/-- Concrete message for the C10 witness. -/
def mViewC10 : Message :=
  { id := 7, senderId := "sally", recipientId := some "rita", content := "ciao"
    status := .pending, linkToken := some "t", linkExpiresAt := some 500
    singleUse := true, linkUsed := false, createdAt := 3, updatedAt := 3 }

/-- Concrete store for the C10 witness. -/
def sViewC10 : Store :=
  { users := [{ id := "sally", name := "Sally", email := "sally@example.com" }]
    messages := [mViewC10], sessions := [] }

/-- A variant of `mViewC10` differing only in the hidden link fields. -/
def mViewC10x : Message :=
  { mViewC10 with
    recipientId := none, linkToken := some "other", linkExpiresAt := none
    singleUse := false, linkUsed := true }

/-- Witness for C10: the success response of `resolveByToken` on a
concrete store, and view-equality of two rows differing only in the
hidden link fields. -/
theorem c10_link_view_is_fixed_projection_witness :
    resolveByToken 5 "t" sViewC10 =
      (.ok (linkViewOf mViewC10 (findUserById mViewC10.senderId sViewC10.users)), sViewC10) ∧
    linkViewOf mViewC10 (findUserById "sally" sViewC10.users) =
      linkViewOf mViewC10x (findUserById "sally" sViewC10.users) := by
  have h := c10_link_view_is_fixed_projection sViewC10 5 "t" mViewC10 rfl rfl rfl
  exact ⟨h.1, h.2 mViewC10 mViewC10x _ rfl rfl rfl rfl⟩

theorem respondSet_id (now : Int) (a : String) (act : Action) (pre : Option String)
    (m : Message) : (respondSet now a act pre m).id = m.id := rfl

theorem respondSet_linkToken (now : Int) (a : String) (act : Action) (pre : Option String)
    (m : Message) : (respondSet now a act pre m).linkToken = m.linkToken := rfl

theorem respondSet_singleUse (now : Int) (a : String) (act : Action) (pre : Option String)
    (m : Message) : (respondSet now a act pre m).singleUse = m.singleUse := rfl

theorem respondSet_linkUsed (now : Int) (a : String) (act : Action) (pre : Option String)
    (m : Message) : (respondSet now a act pre m).linkUsed = true := rfl

theorem linkExpired_respondSet (now2 now1 : Int) (a : String) (act : Action)
    (pre : Option String) (m : Message) :
    linkExpired now2 (respondSet now1 a act pre m) = linkExpired now2 m := rfl

theorem respondStep_fun_linkToken (now : Int) (a : String) (act : Action)
    (pre : Option String) (t : String) (x : Message) :
    (if x.linkToken = some t then respondSet now a act pre x else x).linkToken = x.linkToken := by
  by_cases hc : x.linkToken = some t
  · rw [if_pos hc, respondSet_linkToken]
  · rw [if_neg hc]

/-- Terminal-status message used to refute C1: already `accepted`, link
not single-use, so a later respond is honored by the code. -/
def mTermC1 : Message :=
  { id := 1, senderId := "sally", recipientId := some "alice", content := "x"
    status := .accepted, linkToken := some "t", linkExpiresAt := some 1000
    singleUse := false, linkUsed := true, createdAt := 0, updatedAt := 0 }

/-- Store holding `mTermC1`. -/
def sTermC1 : Store := { users := [], messages := [mTermC1], sessions := [] }

/-- Counterexample to C1 as stated: the message is already in terminal
state `accepted`, yet `respond` succeeds (no Conflict) and flips the
status to `rejected` — the second respond does change the status recorded
by the first, because the code has no `status == pending` precondition. -/
theorem c1_status_monotonic_counterexample :
    (respond 5 "bob" .reject "t" sTermC1).1 =
      .ok { id := 1, status := .rejected, recipientId := some "alice" } ∧
    findByToken "t" (respond 5 "bob" .reject "t" sTermC1).2.messages =
      some { mTermC1 with status := .rejected, linkUsed := true, updatedAt := 5 } := by
  decide

/-- Claim C1 (amended): the code enforces at-most-once response only
through the single-use flag, not through the status: when the message
found by the token is single-use, a successful respond marks the link
used, and every subsequent respond through the same token leaves the
store unchanged and fails with AlreadyUsed (410) — or Expired if the link
has meanwhile expired — never with a Conflict (409), which the endpoint
does not produce. -/
theorem c1_single_use_respond_at_most_once (s : Store) (t : String) (m : Message)
    (now1 now2 : Int) (a1 a2 : String) (act1 act2 : Action)
    (res : RespondOk) (s2 : Store)
    (hfind : findByToken t s.messages = some m)
    (hsingle : m.singleUse = true)
    (hok : respond now1 a1 act1 t s = (.ok res, s2)) :
    (respond now2 a2 act2 t s2).2 = s2 ∧
    (respond now2 a2 act2 t s2).1 =
      .error (if linkExpired now2 m then .expired else .alreadyUsed) := by
  have htok : m.linkToken = some t := (findByToken_mem hfind).2
  unfold respond respondCheck at hok
  rw [hfind] at hok
  by_cases hexp1 : linkExpired now1 m
  · simp [hexp1] at hok
  · by_cases hguard : m.singleUse && m.linkUsed
    · simp [hexp1, hguard] at hok
    · simp only [hexp1, hguard, Bool.false_eq_true, if_false, Prod.mk.injEq] at hok
      have hs2 : s2 = respondUpdateStep now1 a1 act1 m.recipientId t s := hok.2.symm
      have hfind2 : findByToken t s2.messages =
          some (respondSet now1 a1 act1 m.recipientId m) := by
        rw [hs2]
        unfold respondUpdateStep
        rw [findByToken_map t _ (respondStep_fun_linkToken now1 a1 act1 m.recipientId t), hfind]
        simp [htok]
      have hchk : respondCheck now2 t s2 =
          .error (if linkExpired now2 m then .expired else .alreadyUsed) := by
        unfold respondCheck
        rw [hfind2]
        by_cases hexp2 : linkExpired now2 m
        · simp [hexp2, linkExpired_respondSet]
        · simp [hexp2, linkExpired_respondSet, respondSet_singleUse,
            respondSet_linkUsed, hsingle]
      constructor
      · unfold respond
        rw [hchk]
      · unfold respond
        rw [hchk]

/-- Open pending single-use message for the C1 witness. -/
def mOpenC1 : Message :=
  { id := 3, senderId := "carol", recipientId := none, content := "q"
    status := .pending, linkToken := some "w", linkExpiresAt := some 100
    singleUse := true, linkUsed := false, createdAt := 0, updatedAt := 0 }

/-- Store holding `mOpenC1`. -/
def sOpenC1 : Store := { users := [], messages := [mOpenC1], sessions := [] }

/-- The store after bob's successful accept of `mOpenC1`. -/
def sAfterC1 : Store :=
  { users := []
    messages := [{ mOpenC1 with
      status := .accepted, recipientId := some "bob", linkUsed := true, updatedAt := 1 }]
    sessions := [] }

/-- Witness for the amended C1: after bob's successful accept at time 1,
dave's respond at time 2 is rejected with AlreadyUsed and the store is
untouched. -/
theorem c1_single_use_respond_at_most_once_witness :
    (respond 2 "dave" .reject "w" sAfterC1).2 = sAfterC1 ∧
    (respond 2 "dave" .reject "w" sAfterC1).1 = .error .alreadyUsed := by
  have h := c1_single_use_respond_at_most_once sOpenC1 "w" mOpenC1 1 2 "bob" "dave"
    .accept .reject { id := 3, status := .accepted, recipientId := some "bob" } sAfterC1
    (by decide) rfl (by decide)
  refine ⟨h.1, ?_⟩
  have h2 := h.2
  have e : linkExpired 2 mOpenC1 = false := rfl
  rw [e] at h2
  simpa using h2

/-- Pending message already bound to alice, used to refute C3: mallory is
not the bound recipient, yet respond-by-token succeeds. -/
def mBoundC3 : Message :=
  { id := 1, senderId := "sally", recipientId := some "alice", content := "x"
    status := .pending, linkToken := some "t", linkExpiresAt := some 1000
    singleUse := true, linkUsed := false, createdAt := 0, updatedAt := 0 }

/-- Store holding `mBoundC3`. -/
def sBoundC3 : Store := { users := [], messages := [mBoundC3], sessions := [] }

/-- Counterexample to C3 as stated: the message has an explicit bound
`recipientId` ("alice"), yet a respond call by a different actor
("mallory") through the link token succeeds and changes the status —
`POST /api/messages/:token/respond` performs no recipient check at all. -/
theorem c3_forbidden_counterexample :
    (respond 5 "mallory" .accept "t" sBoundC3).1 =
      .ok { id := 1, status := .accepted, recipientId := some "alice" } ∧
    findByToken "t" (respond 5 "mallory" .accept "t" sBoundC3).2.messages =
      some { mBoundC3 with status := .accepted, linkUsed := true, updatedAt := 5 } := by
  decide

/-- Claim C3 (amended): only the id-based endpoints enforce the bound
recipient: `POST /api/messages/:id/accept` and `/:id/reject` fail with
Forbidden (403) and leave the store unchanged when the caller differs
from the bound `recipientId`; the token-based respond endpoint performs
no recipient check — any authenticated actor holding the token succeeds
on an otherwise valid pending message (so in particular the bound
recipient does too), with the already-bound `recipientId` preserved. -/
theorem c3_recipient_check_only_on_id_endpoints (s : Store) (now : Int)
    (mid : Nat) (m : Message) (actor : String) (rid : String) (t : String)
    (act : Action)
    (hfindId : findById mid s.messages = some m)
    (hrid : m.recipientId = some rid) :
    (rid ≠ actor →
      acceptById now actor mid s = (.error .forbidden, s) ∧
      rejectById now actor mid s = (.error .forbidden, s)) ∧
    (findByToken t s.messages = some m → linkExpired now m = false →
      (m.singleUse && m.linkUsed) = false →
      respond now actor act t s =
        (.ok { id := m.id, status := actStatus act, recipientId := some rid },
         respondUpdateStep now actor act m.recipientId t s)) := by
  constructor
  · intro hne
    have hmis : recipMismatch m actor = true := by
      unfold recipMismatch
      rw [hrid]
      simpa using hne
    constructor
    · unfold acceptById
      rw [hfindId]
      simp [hmis]
    · unfold rejectById
      rw [hfindId]
      simp [hmis]
  · intro hfindTok hexp hguard
    unfold respond respondCheck
    rw [hfindTok]
    simp only [hexp, Bool.false_eq_true, if_false, hguard]
    rw [hrid]
    rfl

/-- Witness for the amended C3: on `sBoundC3`, mallory's id-based accept
and reject are Forbidden, and the token respond by the bound recipient
alice succeeds. -/
theorem c3_recipient_check_only_on_id_endpoints_witness :
    (acceptById 5 "mallory" 1 sBoundC3 = (.error .forbidden, sBoundC3) ∧
      rejectById 5 "mallory" 1 sBoundC3 = (.error .forbidden, sBoundC3)) ∧
    respond 5 "alice" .accept "t" sBoundC3 =
      (.ok { id := 1, status := .accepted, recipientId := some "alice" },
       respondUpdateStep 5 "alice" .accept (some "alice") "t" sBoundC3) := by
  have h := c3_recipient_check_only_on_id_endpoints sBoundC3 5 1 mBoundC3 "mallory"
    "alice" "t" .accept rfl rfl
  have h2 := c3_recipient_check_only_on_id_endpoints sBoundC3 5 1 mBoundC3 "alice"
    "alice" "t" .accept rfl rfl
  exact ⟨h.1 (by decide), h2.2 rfl rfl rfl⟩

/-- Pending message bound to alice, used to refute C6 via the id-based
reject endpoint. -/
def mRejC6 : Message :=
  { id := 1, senderId := "sally", recipientId := some "alice", content := "x"
    status := .pending, linkToken := some "t", linkExpiresAt := some 1000
    singleUse := true, linkUsed := false, createdAt := 0, updatedAt := 0 }

/-- Store holding `mRejC6`. -/
def sRejC6 : Store := { users := [], messages := [mRejC6], sessions := [] }

/-- Counterexample to C6 as stated: `POST /api/messages/:id/reject` is a
respond variant that passes its preconditions, yet its update sets only
`status` and `updatedAt` — the stored row keeps `linkUsed = false`, so a
reject does not set `linkUsed = true`. -/
theorem c6_reject_omits_link_used_counterexample :
    (rejectById 7 "alice" 1 sRejC6).1 =
      .ok { mRejC6 with status := .rejected, updatedAt := 7 } ∧
    findById 1 (rejectById 7 "alice" 1 sRejC6).2.messages =
      some { mRejC6 with status := .rejected, updatedAt := 7 } ∧
    ({ mRejC6 with status := .rejected, updatedAt := 7 } : Message).linkUsed = false := by
  decide

/-- Claim C6 (amended): only the token respond endpoint applies the full
effect — status, `linkUsed = true`, `recipientId := recipientId ?? actorId`
and `updatedAt` in one update.  The id-based accept sets status,
`linkUsed` and `updatedAt` but never binds `recipientId`; the id-based
reject sets only status and `updatedAt`, leaving both `linkUsed` and
`recipientId` untouched. -/
theorem c6_respond_variant_effects (s : Store) (now : Int) (t : String)
    (mid : Nat) (mm mi : Message) (actor : String) (act : Action) :
    (findByToken t s.messages = some mm → linkExpired now mm = false →
      (mm.singleUse && mm.linkUsed) = false →
      findByToken t (respond now actor act t s).2.messages =
        some (respondSet now actor act mm.recipientId mm) ∧
      (respondSet now actor act mm.recipientId mm).status = actStatus act ∧
      (respondSet now actor act mm.recipientId mm).linkUsed = true ∧
      (respondSet now actor act mm.recipientId mm).recipientId =
        bindRecip mm.recipientId actor ∧
      (respondSet now actor act mm.recipientId mm).updatedAt = now) ∧
    (findById mid s.messages = some mi → recipMismatch mi actor = false →
      findById mid (acceptById now actor mid s).2.messages =
        some { mi with status := .accepted, linkUsed := true, updatedAt := now } ∧
      findById mid (rejectById now actor mid s).2.messages =
        some { mi with status := .rejected, updatedAt := now }) := by
  constructor
  · intro hfind hexp hguard
    refine ⟨?_, rfl, rfl, rfl, rfl⟩
    have htok : mm.linkToken = some t := (findByToken_mem hfind).2
    unfold respond respondCheck
    rw [hfind]
    simp only [hexp, Bool.false_eq_true, if_false, hguard]
    unfold respondUpdateStep
    rw [findByToken_map t _ (respondStep_fun_linkToken now actor act mm.recipientId t), hfind]
    simp [htok]
  · intro hfindId hmis
    have hid : mi.id = mid := (findById_mem hfindId).2
    constructor
    · unfold acceptById
      rw [hfindId]
      simp only [hmis, Bool.false_eq_true, if_false]
      have hpres : ∀ x : Message,
          ((fun xx => if xx.id = mid then
            { xx with status := MStatus.accepted, linkUsed := true, updatedAt := now }
            else xx) x).id = x.id := by
        intro x
        by_cases hc : x.id = mid
        · simp [hc]
        · simp [hc]
      rw [findById_map mid _ hpres, hfindId]
      simp [hid]
    · unfold rejectById
      rw [hfindId]
      simp only [hmis, Bool.false_eq_true, if_false]
      have hpres : ∀ x : Message,
          ((fun xx => if xx.id = mid then
            { xx with status := MStatus.rejected, updatedAt := now }
            else xx) x).id = x.id := by
        intro x
        by_cases hc : x.id = mid
        · simp [hc]
        · simp [hc]
      rw [findById_map mid _ hpres, hfindId]
      simp [hid]

/-- Witness for the amended C6: concrete effects of the three variants on
`sRejC6`. -/
theorem c6_respond_variant_effects_witness :
    (findByToken "t" (respond 7 "alice" .accept "t" sRejC6).2.messages =
      some (respondSet 7 "alice" .accept (some "alice") mRejC6) ∧
      (respondSet 7 "alice" .accept (some "alice") mRejC6).linkUsed = true) ∧
    (findById 1 (acceptById 7 "alice" 1 sRejC6).2.messages =
      some { mRejC6 with status := .accepted, linkUsed := true, updatedAt := 7 } ∧
      findById 1 (rejectById 7 "alice" 1 sRejC6).2.messages =
        some { mRejC6 with status := .rejected, updatedAt := 7 }) := by
  have h := c6_respond_variant_effects sRejC6 7 "t" 1 mRejC6 mRejC6 "alice" .accept
  have h1 := h.1 rfl rfl rfl
  have h2 := h.2 rfl rfl
  exact ⟨⟨h1.1, h1.2.2.1⟩, h2⟩

/-- Pending single-use unused open message used by the C2 analysis. -/
def mRaceC2 : Message :=
  { id := 1, senderId := "sally", recipientId := none, content := "x"
    status := .pending, linkToken := some "t", linkExpiresAt := some 1000
    singleUse := true, linkUsed := false, createdAt := 0, updatedAt := 0 }

/-- Store holding `mRaceC2`. -/
def sRaceC2 : Store := { users := [], messages := [mRaceC2], sessions := [] }

/-- Counterexample to C2 as stated: the respond handler is a read phase
(`respondCheck`) followed by an update whose WHERE clause matches only the
`linkToken` and re-checks nothing.  Interleaving two respond calls so that
both read before either writes: both checks pass against the same pending
single-use row; after alice's update the WHERE clause of bob's update
still matches 1 row (not 0); bob's update applies and silently overwrites
alice's accept with a reject bound to bob. -/
theorem c2_atomic_update_counterexample :
    respondCheck 1 "t" sRaceC2 = .ok mRaceC2 ∧
    respondCheck 1 "t" sRaceC2 = .ok mRaceC2 ∧
    ¬ countMatching "t" (respondUpdateStep 1 "alice" .accept none "t" sRaceC2).messages = 0 ∧
    findByToken "t"
        (respondUpdateStep 2 "bob" .reject none "t"
          (respondUpdateStep 1 "alice" .accept none "t" sRaceC2)).messages =
      some { mRaceC2 with
        status := .rejected, recipientId := some "bob", linkUsed := true, updatedAt := 2 } := by
  decide

/-- Claim C2 (amended): the precondition checks and the update are two
separate store accesses, and the update's WHERE clause matches on
`linkToken` alone without re-checking `status` or `linkUsed`.  Run
sequentially, the second respond fails (see C1); but when two calls both
pass the read phase against the same pending single-use row before either
update runs, each update still matches the full row count of that token
(never zero rows), both report success, and the later update overwrites
the earlier one. -/
theorem c2_update_not_conditional (s : Store) (t : String) (m : Message)
    (now1 now2 : Int) (a1 a2 : String) (act1 act2 : Action)
    (hfind : findByToken t s.messages = some m)
    (hexp1 : linkExpired now1 m = false) (hexp2 : linkExpired now2 m = false)
    (hguard : (m.singleUse && m.linkUsed) = false) :
    respondCheck now1 t s = .ok m ∧
    respondCheck now2 t s = .ok m ∧
    1 ≤ countMatching t s.messages ∧
    countMatching t (respondUpdateStep now1 a1 act1 m.recipientId t s).messages =
      countMatching t s.messages ∧
    findByToken t
        (respondUpdateStep now2 a2 act2 m.recipientId t
          (respondUpdateStep now1 a1 act1 m.recipientId t s)).messages =
      some (respondSet now2 a2 act2 m.recipientId
        (respondSet now1 a1 act1 m.recipientId m)) := by
  have hmem := (findByToken_mem hfind).1
  have htok : m.linkToken = some t := (findByToken_mem hfind).2
  refine ⟨?_, ?_, ?_, ?_, ?_⟩
  · unfold respondCheck
    rw [hfind]
    simp [hexp1, hguard]
  · unfold respondCheck
    rw [hfind]
    simp [hexp2, hguard]
  · exact countMatching_pos hmem htok
  · unfold respondUpdateStep
    exact countMatching_map t _ (respondStep_fun_linkToken now1 a1 act1 m.recipientId t) s.messages
  · unfold respondUpdateStep
    rw [findByToken_map t _ (respondStep_fun_linkToken now2 a2 act2 m.recipientId t)]
    rw [findByToken_map t _ (respondStep_fun_linkToken now1 a1 act1 m.recipientId t), hfind]
    simp [htok, respondSet_linkToken]

/-- Witness for the amended C2: the interleaved double-respond on the
concrete store `sRaceC2`. -/
theorem c2_update_not_conditional_witness :
    respondCheck 1 "t" sRaceC2 = .ok mRaceC2 ∧
    1 ≤ countMatching "t" sRaceC2.messages ∧
    countMatching "t" (respondUpdateStep 1 "alice" .accept none "t" sRaceC2).messages =
      countMatching "t" sRaceC2.messages ∧
    findByToken "t"
        (respondUpdateStep 2 "bob" .reject none "t"
          (respondUpdateStep 1 "alice" .accept none "t" sRaceC2)).messages =
      some (respondSet 2 "bob" .reject none (respondSet 1 "alice" .accept none mRaceC2)) := by
  have h := c2_update_not_conditional sRaceC2 "t" mRaceC2 1 2 "alice" "bob"
    .accept .reject rfl rfl rfl rfl
  exact ⟨h.1, h.2.2.1, h.2.2.2.1, h.2.2.2.2⟩

theorem resolveRecipient_error (inp : CreateInput) (users : List User)
    {r : CreateErr} (h : resolveRecipient inp users = .error r) :
    r = .recipientNotFound := by
  unfold resolveRecipient at h
  repeat' split at h
  all_goals try cases h
  all_goals rfl

theorem resolveRecipient_notFound_iff (inp : CreateInput) (users : List User) :
    resolveRecipient inp users = .error .recipientNotFound ↔
      ∃ e, inp.recipientEmail = some e ∧ e ≠ "" ∧ findUserByEmail e users = none := by
  unfold resolveRecipient
  repeat' split
  all_goals simp_all

/-- Request body with `linkExpiresIn = 0` used to refute C8. -/
def inpZeroC8 : CreateInput :=
  { content := "hi", recipientEmail := none, recipientId := none
    linkExpiresIn := some 0, singleUse := none }

/-- Empty store for the C8 counterexample. -/
def sEmptyC8 : Store := { users := [], messages := [], sessions := [] }

/-- Counterexample to C8 as stated: with `linkExpiresIn = 0` supplied,
the claim's formula gives `linkExpiresAt = now + 0`, but the code's
`linkExpiresIn || 24*60*60*1000` treats the falsy 0 as absent and the
created row carries `now + 86400000` instead. -/
theorem c8_zero_expiry_counterexample :
    (createMessage 1000 "sally" inpZeroC8 "tok" sEmptyC8).1 =
      .ok (newMsgOf 1000 "sally" inpZeroC8 "tok" none sEmptyC8) ∧
    (newMsgOf 1000 "sally" inpZeroC8 "tok" none sEmptyC8).linkExpiresAt =
      some 86401000 ∧
    ¬ (newMsgOf 1000 "sally" inpZeroC8 "tok" none sEmptyC8).linkExpiresAt =
      some (1000 + 0) := by
  decide

/-- Claim C8 (amended): `createMessage` returns ValidationError (400)
exactly when the content is empty after trimming; it returns
NotFoundError (404) exactly when the content is non-empty and a non-empty
`recipientEmail` is supplied that resolves to no user; otherwise it
appends a message in `pending` state carrying the fresh random
`linkToken`, `linkExpiresAt = now + linkExpiresIn` where the 24-hour
default applies when `linkExpiresIn` is not supplied or is 0 (falsy), and
`singleUse` defaulting to true when not supplied. -/
theorem c8_create_validation_and_effect (now : Int) (sender : String)
    (inp : CreateInput) (ftok : String) (s : Store) :
    ((createMessage now sender inp ftok s).1 = .error .contentRequired ↔
      contentEmpty inp.content = true) ∧
    ((createMessage now sender inp ftok s).1 = .error .recipientNotFound ↔
      (contentEmpty inp.content = false ∧
        ∃ e, inp.recipientEmail = some e ∧ e ≠ "" ∧
          findUserByEmail e s.users = none)) ∧
    (∀ rid : Option String, contentEmpty inp.content = false →
      resolveRecipient inp s.users = .ok rid →
      createMessage now sender inp ftok s =
        (.ok (newMsgOf now sender inp ftok rid s),
         { s with messages := s.messages ++ [newMsgOf now sender inp ftok rid s] }) ∧
      (newMsgOf now sender inp ftok rid s).status = .pending ∧
      (newMsgOf now sender inp ftok rid s).linkToken = some ftok ∧
      (newMsgOf now sender inp ftok rid s).linkExpiresAt =
        some (now + expirationMsOf inp.linkExpiresIn) ∧
      (newMsgOf now sender inp ftok rid s).singleUse = inp.singleUse.getD true ∧
      (newMsgOf now sender inp ftok rid s).linkUsed = false ∧
      (newMsgOf now sender inp ftok rid s).recipientId = rid) ∧
    expirationMsOf none = defaultLinkMs ∧
    expirationMsOf (some 0) = defaultLinkMs ∧
    (∀ v : Int, v ≠ 0 → expirationMsOf (some v) = v) := by
  refine ⟨?_, ?_, ?_, rfl, rfl, ?_⟩
  · cases htrim : contentEmpty inp.content with
    | true => simp [createMessage, htrim]
    | false =>
      cases hres : resolveRecipient inp s.users with
      | error e =>
        have he := resolveRecipient_error inp s.users hres
        subst he
        simp [createMessage, htrim, hres]
      | ok rid =>
        simp [createMessage, htrim, hres]
  · have hkey : (createMessage now sender inp ftok s).1 = .error .recipientNotFound ↔
        (contentEmpty inp.content = false ∧
          resolveRecipient inp s.users = .error .recipientNotFound) := by
      cases htrim : contentEmpty inp.content with
      | true => simp [createMessage, htrim]
      | false =>
        cases hres : resolveRecipient inp s.users with
        | error e =>
          have he := resolveRecipient_error inp s.users hres
          subst he
          simp [createMessage, htrim, hres]
        | ok rid =>
          simp [createMessage, htrim, hres]
    rw [hkey, resolveRecipient_notFound_iff]
  · intro rid htrim hres
    refine ⟨?_, rfl, rfl, rfl, rfl, rfl, rfl⟩
    simp [createMessage, htrim, hres]
  · intro v hv
    simp [expirationMsOf, hv]

/-- Request body with an unknown recipient email for the C8 witness. -/
def inpEmailC8 : CreateInput :=
  { content := "hi", recipientEmail := some "ghost@example.com"
    recipientId := none, linkExpiresIn := none, singleUse := some false }

/-- Witness for the amended C8: empty content is a 400, an unknown email
is a 404, and a valid consent-flow create appends the pending
single-link row with the default 24h expiry. -/
theorem c8_create_validation_and_effect_witness :
    (createMessage 1000 "sally" { inpZeroC8 with content := "  " } "tok" sEmptyC8).1 =
      .error .contentRequired ∧
    (createMessage 1000 "sally" inpEmailC8 "tok" sEmptyC8).1 =
      .error .recipientNotFound ∧
    createMessage 1000 "sally" inpEmailC8 "tok"
        { users := [{ id := "rita", name := "Rita", email := "ghost@example.com" }]
          messages := [], sessions := [] } =
      (.ok (newMsgOf 1000 "sally" inpEmailC8 "tok" (some "rita")
        { users := [{ id := "rita", name := "Rita", email := "ghost@example.com" }]
          messages := [], sessions := [] }),
       { users := [{ id := "rita", name := "Rita", email := "ghost@example.com" }]
         messages := [newMsgOf 1000 "sally" inpEmailC8 "tok" (some "rita")
           { users := [{ id := "rita", name := "Rita", email := "ghost@example.com" }]
             messages := [], sessions := [] }]
         sessions := [] }) := by
  refine ⟨?_, ?_, ?_⟩
  · exact (c8_create_validation_and_effect 1000 "sally"
      { inpZeroC8 with content := "  " } "tok" sEmptyC8).1.mpr (by decide)
  · exact (c8_create_validation_and_effect 1000 "sally" inpEmailC8 "tok" sEmptyC8).2.1.mpr
      ⟨by decide, "ghost@example.com", rfl, by decide, rfl⟩
  · exact ((c8_create_validation_and_effect 1000 "sally" inpEmailC8 "tok"
      { users := [{ id := "rita", name := "Rita", email := "ghost@example.com" }]
        messages := [], sessions := [] }).2.2.1 (some "rita") (by decide) rfl).1

theorem respondStep_fun_id (now : Int) (a : String) (act : Action)
    (pre : Option String) (t : String) (x : Message) :
    (if x.linkToken = some t then respondSet now a act pre x else x).id = x.id := by
  by_cases hc : x.linkToken = some t
  · rw [if_pos hc, respondSet_id]
  · rw [if_neg hc]

theorem respondCheck_ok (now : Int) (t : String) (s : Store) {m0 : Message}
    (h : respondCheck now t s = .ok m0) :
    findByToken t s.messages = some m0 ∧ linkExpired now m0 = false ∧
      (m0.singleUse && m0.linkUsed) = false := by
  unfold respondCheck at h
  split at h
  next heq => cases h
  next mm heq =>
    split at h
    next hexp => cases h
    next hexp =>
      split at h
      next hg => cases h
      next hg =>
        cases h
        exact ⟨heq, by simpa using hexp, by simpa using hg⟩

theorem stepMsg_preserves (op : MsgOp) (s : Store) (A : String) (r : Message)
    (hu1 : IdUnique s.messages) (hu2 : TokUnique s.messages)
    (hr : r ∈ s.messages) (h1 : r.singleUse = true) (h2 : r.linkUsed = true)
    (h3 : r.recipientId = some A) (hact : msgOpActor op ≠ A) :
    r ∈ (stepMsg op s).messages ∧ IdUnique (stepMsg op s).messages ∧
      TokUnique (stepMsg op s).messages := by
  cases op with
  | respondTok now a act t =>
    show r ∈ (respond now a act t s).2.messages ∧
      IdUnique (respond now a act t s).2.messages ∧
      TokUnique (respond now a act t s).2.messages
    cases hchk : respondCheck now t s with
    | error e =>
      have hstep : (respond now a act t s).2 = s := by
        unfold respond
        rw [hchk]
      rw [hstep]
      exact ⟨hr, hu1, hu2⟩
    | ok m0 =>
      obtain ⟨hfind, hexp0, hg0⟩ := respondCheck_ok now t s hchk
      have hstep : (respond now a act t s).2 =
          respondUpdateStep now a act m0.recipientId t s := by
        unfold respond
        rw [hchk]
      rw [hstep]
      have hne : ¬ r.linkToken = some t := by
        intro hcon
        have heq := tokUnique_eq hu2 (findByToken_mem hfind).1 hr
          (findByToken_mem hfind).2 hcon
        rw [heq, h1, h2] at hg0
        simp at hg0
      refine ⟨List.mem_map.mpr ⟨r, hr, if_neg hne⟩, ?_, ?_⟩
      · exact idUnique_map _ (respondStep_fun_id now a act m0.recipientId t) hu1
      · exact tokUnique_map _ (respondStep_fun_linkToken now a act m0.recipientId t) hu2
  | acceptOp now a mid =>
    show r ∈ (acceptById now a mid s).2.messages ∧
      IdUnique (acceptById now a mid s).2.messages ∧
      TokUnique (acceptById now a mid s).2.messages
    cases hfind : findById mid s.messages with
    | none =>
      have hstep : (acceptById now a mid s).2 = s := by
        unfold acceptById
        rw [hfind]
      rw [hstep]
      exact ⟨hr, hu1, hu2⟩
    | some m0 =>
      by_cases hmis : recipMismatch m0 a = true
      · have hstep : (acceptById now a mid s).2 = s := by
          unfold acceptById
          rw [hfind]
          simp [hmis]
        rw [hstep]
        exact ⟨hr, hu1, hu2⟩
      · have hstep : (acceptById now a mid s).2 =
            { s with messages := s.messages.map fun mm =>
              if mm.id = mid then
                { mm with status := MStatus.accepted, linkUsed := true, updatedAt := now }
              else mm } := by
          unfold acceptById
          rw [hfind]
          simp [hmis]
        rw [hstep]
        have hne : ¬ r.id = mid := by
          intro hcon
          have heq := idUnique_eq hu1 (findById_mem hfind).1 hr
            ((findById_mem hfind).2.trans hcon.symm)
          rw [heq] at hmis
          apply hmis
          simp only [recipMismatch, h3, decide_eq_true_eq]
          exact fun hyp => hact hyp.symm
        refine ⟨List.mem_map.mpr ⟨r, hr, if_neg hne⟩, ?_, ?_⟩
        · refine idUnique_map _ ?_ hu1
          intro x
          by_cases hc : x.id = mid
          · simp [hc]
          · simp [hc]
        · refine tokUnique_map _ ?_ hu2
          intro x
          by_cases hc : x.id = mid
          · simp [hc]
          · simp [hc]
  | rejectOp now a mid =>
    show r ∈ (rejectById now a mid s).2.messages ∧
      IdUnique (rejectById now a mid s).2.messages ∧
      TokUnique (rejectById now a mid s).2.messages
    cases hfind : findById mid s.messages with
    | none =>
      have hstep : (rejectById now a mid s).2 = s := by
        unfold rejectById
        rw [hfind]
      rw [hstep]
      exact ⟨hr, hu1, hu2⟩
    | some m0 =>
      by_cases hmis : recipMismatch m0 a = true
      · have hstep : (rejectById now a mid s).2 = s := by
          unfold rejectById
          rw [hfind]
          simp [hmis]
        rw [hstep]
        exact ⟨hr, hu1, hu2⟩
      · have hstep : (rejectById now a mid s).2 =
            { s with messages := s.messages.map fun mm =>
              if mm.id = mid then
                { mm with status := MStatus.rejected, updatedAt := now }
              else mm } := by
          unfold rejectById
          rw [hfind]
          simp [hmis]
        rw [hstep]
        have hne : ¬ r.id = mid := by
          intro hcon
          have heq := idUnique_eq hu1 (findById_mem hfind).1 hr
            ((findById_mem hfind).2.trans hcon.symm)
          rw [heq] at hmis
          apply hmis
          simp only [recipMismatch, h3, decide_eq_true_eq]
          exact fun hyp => hact hyp.symm
        refine ⟨List.mem_map.mpr ⟨r, hr, if_neg hne⟩, ?_, ?_⟩
        · refine idUnique_map _ ?_ hu1
          intro x
          by_cases hc : x.id = mid
          · simp [hc]
          · simp [hc]
        · refine tokUnique_map _ ?_ hu2
          intro x
          by_cases hc : x.id = mid
          · simp [hc]
          · simp [hc]

theorem runMsgOps_preserves (ops : List MsgOp) (A : String) (r : Message)
    (h1 : r.singleUse = true) (h2 : r.linkUsed = true)
    (h3 : r.recipientId = some A) :
    ∀ s : Store, IdUnique s.messages → TokUnique s.messages → r ∈ s.messages →
      (∀ op ∈ ops, msgOpActor op ≠ A) →
      r ∈ (runMsgOps ops s).messages ∧ IdUnique (runMsgOps ops s).messages ∧
        TokUnique (runMsgOps ops s).messages := by
  induction ops with
  | nil =>
    intro s hu1 hu2 hr _
    exact ⟨hr, hu1, hu2⟩
  | cons op ops ih =>
    intro s hu1 hu2 hr hact
    have hstep := stepMsg_preserves op s A r hu1 hu2 hr h1 h2 h3
      (hact op (List.mem_cons_self _ _))
    exact ih (stepMsg op s) hstep.2.1 hstep.2.2 hstep.1
      (fun o ho => hact o (List.mem_cons_of_mem _ ho))

/-- Open pending single-use message and store used to refute C4. -/
def mOpenNotSingle : Message :=
  { id := 1, senderId := "carol", recipientId := none, content := "q"
    status := .pending, linkToken := some "t", linkExpiresAt := some 1000
    singleUse := false, linkUsed := false, createdAt := 0, updatedAt := 0 }

/-- Store holding `mOpenNotSingle`. -/
def sOpenNotSingle : Store :=
  { users := [], messages := [mOpenNotSingle], sessions := [] }

/-- Counterexample to C4 as stated: the message is created with
`recipientId = null` but `singleUse = false`.  Alice's respond binds her
id and accepts; bob's later respond through the token still succeeds and
flips the status to rejected — a different user altered the message after
the first response, because nothing but the single-use flag guards it. -/
theorem c4_open_binding_counterexample :
    (respond 1 "alice" .accept "t" sOpenNotSingle).1 =
      .ok { id := 1, status := .accepted, recipientId := some "alice" } ∧
    (respond 2 "bob" .reject "t" (respond 1 "alice" .accept "t" sOpenNotSingle).2).1 =
      .ok { id := 1, status := .rejected, recipientId := some "alice" } ∧
    findByToken "t"
        (respond 2 "bob" .reject "t" (respond 1 "alice" .accept "t" sOpenNotSingle).2).2.messages =
      some { mOpenNotSingle with
        status := .rejected, recipientId := some "alice", linkUsed := true, updatedAt := 2 } := by
  decide

/-- Claim C4 (amended): for a message created with `recipientId = null`
and `singleUse = true`, the first successful respond binds the
responder's id as `recipientId` in the same update that sets the terminal
status, and afterwards no operation sequence by other actors (responds by
token, accepts or rejects by id) can change the message: the updated row
survives every such sequence unchanged, and it is the only row with its
id. -/
theorem c4_open_binding_then_immutable (s : Store) (now : Int) (A : String)
    (act : Action) (t : String) (m : Message) (ops : List MsgOp)
    (hfind : findByToken t s.messages = some m)
    (hopen : m.recipientId = none)
    (hsingle : m.singleUse = true)
    (hexp : linkExpired now m = false)
    (hused : m.linkUsed = false)
    (hu1 : IdUnique s.messages) (hu2 : TokUnique s.messages)
    (hops : ∀ op ∈ ops, msgOpActor op ≠ A) :
    respond now A act t s =
      (.ok { id := m.id, status := actStatus act, recipientId := some A },
       respondUpdateStep now A act m.recipientId t s) ∧
    (respondSet now A act m.recipientId m).recipientId = some A ∧
    (respondSet now A act m.recipientId m).status = actStatus act ∧
    respondSet now A act m.recipientId m ∈
      (runMsgOps ops (respondUpdateStep now A act m.recipientId t s)).messages ∧
    (∀ r2 ∈ (runMsgOps ops (respondUpdateStep now A act m.recipientId t s)).messages,
      r2.id = m.id → r2 = respondSet now A act m.recipientId m) := by
  have hguard : (m.singleUse && m.linkUsed) = false := by
    rw [hsingle, hused]
    rfl
  have hres : respond now A act t s =
      (.ok { id := m.id, status := actStatus act, recipientId := some A },
       respondUpdateStep now A act m.recipientId t s) := by
    unfold respond respondCheck
    rw [hfind]
    simp [hexp, hguard, bindRecip, hopen]
  have hr_rec : (respondSet now A act m.recipientId m).recipientId = some A := by
    show bindRecip m.recipientId A = some A
    rw [hopen]
    rfl
  have htok : m.linkToken = some t := (findByToken_mem hfind).2
  have hrmem : respondSet now A act m.recipientId m ∈
      (respondUpdateStep now A act m.recipientId t s).messages :=
    List.mem_map.mpr ⟨m, (findByToken_mem hfind).1, if_pos htok⟩
  have hu1x : IdUnique (respondUpdateStep now A act m.recipientId t s).messages :=
    idUnique_map _ (respondStep_fun_id now A act m.recipientId t) hu1
  have hu2x : TokUnique (respondUpdateStep now A act m.recipientId t s).messages :=
    tokUnique_map _ (respondStep_fun_linkToken now A act m.recipientId t) hu2
  have hrs : (respondSet now A act m.recipientId m).singleUse = true := by
    rw [respondSet_singleUse, hsingle]
  have hrun := runMsgOps_preserves ops A (respondSet now A act m.recipientId m)
    hrs (respondSet_linkUsed now A act m.recipientId m) hr_rec
    (respondUpdateStep now A act m.recipientId t s) hu1x hu2x hrmem hops
  refine ⟨hres, hr_rec, rfl, hrun.1, ?_⟩
  intro r2 hr2 hid2
  exact idUnique_eq hrun.2.1 hr2 hrun.1
    (by rw [hid2, respondSet_id])

/-- Open pending single-use message for the C4 witness. -/
def mOpenC4 : Message :=
  { id := 1, senderId := "carol", recipientId := none, content := "q"
    status := .pending, linkToken := some "t", linkExpiresAt := some 100
    singleUse := true, linkUsed := false, createdAt := 0, updatedAt := 0 }

/-- Store holding `mOpenC4`. -/
def sOpenC4 : Store := { users := [], messages := [mOpenC4], sessions := [] }

/-- Operation sequence by an actor other than alice. -/
def opsC4 : List MsgOp :=
  [.respondTok 2 "bob" .reject "t", .acceptOp 3 "bob" 1, .rejectOp 4 "bob" 1]

/-- Witness for the amended C4: alice's respond on the open single-use
message binds her and accepts, and the row survives bob's respond, accept
and reject attempts untouched. -/
theorem c4_open_binding_then_immutable_witness :
    respond 1 "alice" .accept "t" sOpenC4 =
      (.ok { id := 1, status := .accepted, recipientId := some "alice" },
       respondUpdateStep 1 "alice" .accept none "t" sOpenC4) ∧
    respondSet 1 "alice" .accept none mOpenC4 ∈
      (runMsgOps opsC4 (respondUpdateStep 1 "alice" .accept none "t" sOpenC4)).messages := by
  have h := c4_open_binding_then_immutable sOpenC4 1 "alice" .accept "t" mOpenC4 opsC4
    rfl rfl rfl rfl rfl (by simp [IdUnique, sOpenC4]) (by simp [TokUnique, sOpenC4])
    (by decide)
  exact ⟨h.1, h.2.2.2.1⟩

theorem connectSession_frame (now : Int) (a t : String) (s : Store) :
    (connectSession now a t s).2 = s := by
  unfold connectSession
  repeat' split
  all_goals rfl

theorem viewSession_frame (now : Int) (t : String) (s : Store) :
    (viewSession now t s).2 = s := by
  unfold viewSession
  repeat' split
  all_goals rfl

theorem fetchSessionMessage_frame (now : Int) (t : String) (s : Store) :
    (fetchSessionMessage now t s).2 = s := by
  unfold fetchSessionMessage
  repeat' split
  all_goals rfl

theorem attach_fun_id (mid0 qid : Nat) (x : ProxSession) :
    ((fun qq => if qq.id = qid then { qq with messageId := some mid0 } else qq) x).id
      = x.id := by
  by_cases hc : x.id = qid
  · simp [hc]
  · simp [hc]

theorem attach_fun_token (mid0 qid : Nat) (x : ProxSession) :
    ((fun qq => if qq.id = qid then { qq with messageId := some mid0 } else qq) x).proximityToken
      = x.proximityToken := by
  by_cases hc : x.id = qid
  · simp [hc]
  · simp [hc]

theorem attachMessage_rejects (now : Int) (a t c : String) (s : Store)
    (q : ProxSession)
    (h : findSessionByToken t s.sessions = none ∨
      (findSessionByToken t s.sessions = some q ∧
        (q.initiatorId ≠ a ∨ q.expiresAt < now ∨ q.messageId ≠ none))) :
    (∃ err, (attachMessage now a t c s).1 = .error err) ∧
    (attachMessage now a t c s).2 = s := by
  cases hc : contentEmpty c with
  | true =>
    refine ⟨⟨.contentRequired, ?_⟩, ?_⟩ <;> simp [attachMessage, hc]
  | false =>
    rcases h with hnone | ⟨hfind, hbad⟩
    · refine ⟨⟨.notFound, ?_⟩, ?_⟩ <;> simp [attachMessage, hc, hnone]
    · by_cases hinit : q.initiatorId ≠ a
      · refine ⟨⟨.forbidden, ?_⟩, ?_⟩ <;> simp [attachMessage, hc, hfind, hinit]
      · by_cases hexpd : q.expiresAt < now
        · refine ⟨⟨.expired, ?_⟩, ?_⟩ <;> simp [attachMessage, hc, hfind, hinit, hexpd]
        · cases hmid0 : q.messageId with
          | none =>
            rcases hbad with hb | hb | hb
            · exact absurd hb hinit
            · exact absurd hb hexpd
            · exact absurd hmid0 hb
          | some x =>
            refine ⟨⟨.alreadyAttached, ?_⟩, ?_⟩ <;>
              simp [attachMessage, hc, hfind, hinit, hexpd, hmid0]

theorem stepSess_preserves (op : SessOp) (s : Store) (q : ProxSession) (mid : Nat)
    (hu : SessIdUnique s.sessions) (hq : q ∈ s.sessions)
    (hmid : q.messageId = some mid) :
    q ∈ (stepSess op s).sessions ∧ SessIdUnique (stepSess op s).sessions := by
  cases op with
  | createOp now i e ft =>
    show q ∈ (createProxSession now i e ft s).2.sessions ∧
      SessIdUnique (createProxSession now i e ft s).2.sessions
    have hstep : (createProxSession now i e ft s).2 =
        { s with sessions := s.sessions ++ [newSessOf now i e ft s] } := rfl
    rw [hstep]
    constructor
    · exact List.mem_append_left _ hq
    · refine sessIdUnique_append hu _ ?_
      intro q2 hq2
      exact Nat.ne_of_lt (Nat.lt_succ_of_le (mem_le_maxSessId hq2))
  | attachOp now a t c =>
    show q ∈ (attachMessage now a t c s).2.sessions ∧
      SessIdUnique (attachMessage now a t c s).2.sessions
    cases hc : contentEmpty c with
    | true =>
      have hstep : (attachMessage now a t c s).2 = s := by
        simp [attachMessage, hc]
      rw [hstep]
      exact ⟨hq, hu⟩
    | false =>
      cases hfind : findSessionByToken t s.sessions with
      | none =>
        have hstep : (attachMessage now a t c s).2 = s := by
          simp [attachMessage, hc, hfind]
        rw [hstep]
        exact ⟨hq, hu⟩
      | some q0 =>
        by_cases hinit : q0.initiatorId ≠ a
        · have hstep : (attachMessage now a t c s).2 = s := by
            simp [attachMessage, hc, hfind, hinit]
          rw [hstep]
          exact ⟨hq, hu⟩
        · by_cases hexpd : q0.expiresAt < now
          · have hstep : (attachMessage now a t c s).2 = s := by
              simp [attachMessage, hc, hfind, hinit, hexpd]
            rw [hstep]
            exact ⟨hq, hu⟩
          · cases hmid0 : q0.messageId with
            | some x =>
              have hstep : (attachMessage now a t c s).2 = s := by
                simp [attachMessage, hc, hfind, hinit, hexpd, hmid0]
              rw [hstep]
              exact ⟨hq, hu⟩
            | none =>
              have hstep : (attachMessage now a t c s).2 =
                  { s with
                    messages := s.messages ++ [attachedMsgOf now a c s]
                    sessions := s.sessions.map fun qq =>
                      if qq.id = q0.id then
                        { qq with messageId := some (freshMsgId s.messages) }
                      else qq } := by
                simp [attachMessage, hc, hfind, hinit, hexpd, hmid0]
              rw [hstep]
              have hne : ¬ q.id = q0.id := by
                intro hcon
                have heq := sessIdUnique_eq hu hq (findSessionByToken_mem hfind).1 hcon
                rw [← heq, hmid] at hmid0
                cases hmid0
              constructor
              · exact List.mem_map.mpr ⟨q, hq, if_neg hne⟩
              · exact sessIdUnique_map _ (attach_fun_id (freshMsgId s.messages) q0.id) hu
  | connectOp now a t =>
    show q ∈ (connectSession now a t s).2.sessions ∧
      SessIdUnique (connectSession now a t s).2.sessions
    rw [connectSession_frame]
    exact ⟨hq, hu⟩
  | viewOp now t =>
    show q ∈ (viewSession now t s).2.sessions ∧
      SessIdUnique (viewSession now t s).2.sessions
    rw [viewSession_frame]
    exact ⟨hq, hu⟩
  | fetchOp now t =>
    show q ∈ (fetchSessionMessage now t s).2.sessions ∧
      SessIdUnique (fetchSessionMessage now t s).2.sessions
    rw [fetchSessionMessage_frame]
    exact ⟨hq, hu⟩

theorem runSessOps_preserves (ops : List SessOp) (q : ProxSession) (mid : Nat)
    (hmid : q.messageId = some mid) :
    ∀ s : Store, SessIdUnique s.sessions → q ∈ s.sessions →
      q ∈ (runSessOps ops s).sessions ∧ SessIdUnique (runSessOps ops s).sessions := by
  induction ops with
  | nil =>
    intro s hu hq
    exact ⟨hq, hu⟩
  | cons op ops ih =>
    intro s hu hq
    have hstep := stepSess_preserves op s q mid hu hq hmid
    exact ih (stepSess op s) hstep.2 hstep.1

/-- Claim C9: a proximity session carries at most one message ever:
`attachMessage` is rejected (with the store unchanged) when the session
does not exist, when the caller is not the initiator, when `now` is past
`expiresAt`, or when a message is already attached; a successful attach
creates a pending message with `recipientId = null` and sets the
session's `messageId`; and once `messageId` is set, the session row
survives every further sequence of session operations unchanged — the
field is never reset. -/
theorem c9_session_attach_once (s : Store) (now : Int) (a t c : String)
    (q : ProxSession) (mid : Nat) (ops : List SessOp) :
    ((findSessionByToken t s.sessions = none ∨
        (findSessionByToken t s.sessions = some q ∧
          (q.initiatorId ≠ a ∨ q.expiresAt < now ∨ q.messageId ≠ none))) →
      (∃ err, (attachMessage now a t c s).1 = .error err) ∧
      (attachMessage now a t c s).2 = s) ∧
    (contentEmpty c = false → findSessionByToken t s.sessions = some q →
      q.initiatorId = a → ¬ q.expiresAt < now → q.messageId = none →
      attachMessage now a t c s =
        (.ok (freshMsgId s.messages, q.id),
         { s with
           messages := s.messages ++ [attachedMsgOf now a c s]
           sessions := s.sessions.map fun qq =>
             if qq.id = q.id then { qq with messageId := some (freshMsgId s.messages) }
             else qq }) ∧
      (attachedMsgOf now a c s).recipientId = none ∧
      (attachedMsgOf now a c s).status = .pending ∧
      findSessionByToken t (attachMessage now a t c s).2.sessions =
        some { q with messageId := some (freshMsgId s.messages) }) ∧
    (SessIdUnique s.sessions → q ∈ s.sessions → q.messageId = some mid →
      q ∈ (runSessOps ops s).sessions ∧
      (∀ q2 ∈ (runSessOps ops s).sessions, q2.id = q.id → q2 = q)) := by
  refine ⟨attachMessage_rejects now a t c s q, ?_, ?_⟩
  · intro hc hfind hinit hexpd hmid0
    have hinit2 : ¬ q.initiatorId ≠ a := by
      rw [hinit]
      exact fun hx => hx rfl
    have hmain : attachMessage now a t c s =
        (.ok (freshMsgId s.messages, q.id),
         { s with
           messages := s.messages ++ [attachedMsgOf now a c s]
           sessions := s.sessions.map fun qq =>
             if qq.id = q.id then { qq with messageId := some (freshMsgId s.messages) }
             else qq }) := by
      simp [attachMessage, hc, hfind, hinit2, hexpd, hmid0]
    refine ⟨hmain, rfl, rfl, ?_⟩
    rw [hmain]
    show findSessionByToken t (s.sessions.map fun qq =>
      if qq.id = q.id then { qq with messageId := some (freshMsgId s.messages) } else qq) = _
    rw [findSessionByToken_map t _ (attach_fun_token (freshMsgId s.messages) q.id), hfind]
    simp
  · intro hu hq hmid2
    have hrun := runSessOps_preserves ops q mid hmid2 s hu hq
    exact ⟨hrun.1, fun q2 hq2 hid => sessIdUnique_eq hrun.2 hq2 hrun.1 hid⟩

/-- Fresh proximity session for the C9 witness. -/
def qOpenC9 : ProxSession :=
  { id := 1, initiatorId := "ingrid", proximityToken := "p"
    expiresAt := 100, messageId := none }

/-- Store holding `qOpenC9`. -/
def sSessC9 : Store := { users := [], messages := [], sessions := [qOpenC9] }

/-- A session that already carries a message. -/
def qDoneC9 : ProxSession := { qOpenC9 with messageId := some 1 }

/-- Store holding `qDoneC9`. -/
def sDoneC9 : Store := { users := [], messages := [], sessions := [qDoneC9] }

/-- A sequence of session operations thrown at the attached session. -/
def opsC9 : List SessOp :=
  [.attachOp 3 "ingrid" "p" "x", .createOp 4 "zed" none "p2",
   .connectOp 5 "bob" "p", .viewOp 6 "p", .fetchOp 7 "p"]

/-- Witness for C9: the successful attach on the fresh session, a
rejected double-attach on the attached session, and survival of the
attached session through a sequence of further operations. -/
theorem c9_session_attach_once_witness :
    attachMessage 2 "ingrid" "p" "hello" sSessC9 =
      (.ok (freshMsgId sSessC9.messages, 1),
       { sSessC9 with
         messages := sSessC9.messages ++ [attachedMsgOf 2 "ingrid" "hello" sSessC9]
         sessions := sSessC9.sessions.map fun qq =>
           if qq.id = 1 then { qq with messageId := some (freshMsgId sSessC9.messages) }
           else qq }) ∧
    (∃ err, (attachMessage 10 "ingrid" "p" "x" sDoneC9).1 = .error err) ∧
    qDoneC9 ∈ (runSessOps opsC9 sDoneC9).sessions := by
  have h1 := c9_session_attach_once sSessC9 2 "ingrid" "p" "hello" qOpenC9 0 []
  have h2 := c9_session_attach_once sDoneC9 10 "ingrid" "p" "x" qDoneC9 1 opsC9
  refine ⟨(h1.2.1 rfl rfl rfl (by decide) rfl).1, ?_, ?_⟩
  · exact (h2.1 (Or.inr ⟨rfl, Or.inr (Or.inr (by decide))⟩)).1
  · exact (h2.2.2 (by simp [SessIdUnique, sDoneC9]) (by decide) rfl).1

end AcceptConnect
